import Mathlib

/-!
Shallow embedding of the lint-result pipeline of `src/run.ts` (a GitHub action
driving golangci-lint).  Pure TypeScript functions become Lean functions; the
effectful parts of `printOutput` / `annotateLintIssues` are modelled by the
observable effects they produce (the `setFailed` message and the sequence of
`checks.update` calls).  JavaScript strings are Lean `String`s; the handful of
JS string methods used by the source (`split`, `replace`, `startsWith`,
`toLowerCase`, `trimRight`, `join`) are embedded as structurally recursive
functions on the character list so that concrete runs reduce by `decide`/`rfl`.
-/

namespace GolangciLintAction

/-! ## Data model (`src/run.ts`, lines 100-170) -/

/-- Enum `LintSeverity { notice, warning, failure }` (numeric TS enum; the
numeric values are recovered by `sevOrd`). -/
inductive LintSeverity
  | notice
  | warning
  | failure
  deriving DecidableEq, Repr

/-- Numeric value of an enum member: `LintSeverity[sev]` where `sev` is one of
the member names, i.e. notice = 0, warning = 1, failure = 2. -/
def sevOrd : LintSeverity → Nat
  | .notice => 0
  | .warning => 1
  | .failure => 2

/-- Position record `Pos {Filename, Line, Column}` of an issue. -/
structure Pos where
  Filename : String
  Line : Nat
  Column : Nat
  deriving DecidableEq, Repr

/-- Optional line range `LineRange {From, To}` of an issue. -/
structure LineRange where
  From : Nat
  To : Nat
  deriving DecidableEq, Repr

/-- Optional suggested replacement `Replacement {NeedOnlyDelete, NewLines}`. -/
structure Replacement where
  NeedOnlyDelete : Bool
  NewLines : List String
  deriving DecidableEq, Repr

/-- An issue as found in the raw JSON (`UnfilteredLintIssue`): the `Severity`
field is still an arbitrary string reported by the tool. -/
structure RawIssue where
  Text : String
  FromLinter : String
  Severity : String
  Pos : Pos
  LineRange : Option LineRange
  Replacement : Option Replacement
  deriving DecidableEq, Repr

/-- `LintIssue`: an issue after severity normalization (field `Severity` has
type `LintSeverityStrings`, i.e. one of the three enum member names). -/
structure LintIssue where
  Text : String
  FromLinter : String
  Severity : LintSeverity
  Pos : Pos
  LineRange : Option LineRange
  Replacement : Option Replacement
  deriving DecidableEq, Repr

/-- The advisory `Report` sub-structure of the tool output (warnings, enabled
linters, top-level error).  It is logged only; fields are optional. -/
structure ReportInfo where
  Warnings : Option (List String)
  Linters : Option (List String)
  Error : Option String
  deriving DecidableEq, Repr

/-- `LintOutput`: the validated parse result. -/
structure LintOutput where
  Issues : List LintIssue
  Report : ReportInfo
  deriving DecidableEq, Repr

/-- Shape of the value produced by `JSON.parse` on the tool stdout, before any
validation: both the `Issues` array and the `Report` object may be absent. -/
structure RawLintOutput where
  Issues : Option (List RawIssue)
  Report : Option ReportInfo
  deriving DecidableEq, Repr

/-- A raw stdout text, abstracted by its `JSON.parse` outcome: either it is not
well-formed JSON (`JSON.parse` throws), or it parses to a `RawLintOutput`. -/
inductive RawText
  | invalid
  | parsed (v : RawLintOutput)
  deriving DecidableEq, Repr

/-! ## Embedded JavaScript string primitives -/

/-- JS `String.prototype.toLowerCase` (ASCII part, which is all the severity
vocabulary uses). -/
def toLowerCase (s : String) : String :=
  ⟨s.data.map Char.toLower⟩

/-- Split a character list at every character satisfying `p`, keeping empty
segments, exactly like JS `split(/\s/)` keeps empty strings between two
adjacent separators. -/
def splitChars (p : Char → Bool) : List Char → List (List Char)
  | [] => [[]]
  | c :: cs =>
    if p c then [] :: splitChars p cs
    else
      match splitChars p cs with
      | [] => [[c]]
      | w :: ws => (c :: w) :: ws

/-- JS `userArgs.split(/\s/)`. -/
def splitOnWhitespace (s : String) : List String :=
  (splitChars Char.isWhitespace s.data).map (fun cs => ⟨cs⟩)

/-- JS `arg.split("=")[0]`: the prefix of `arg` before the first `=`. -/
def argName (arg : String) : String :=
  ⟨arg.data.takeWhile (fun c => c != '=')⟩

/-- JS `arg.startsWith("-")`. -/
def startsWithDash (arg : String) : Bool :=
  match arg.data with
  | c :: _ => c == '-'
  | [] => false

/-- Remove the first `-` of the list, if any. -/
def dropFirstDash : List Char → List Char
  | [] => []
  | c :: cs => if c = '-' then cs else c :: dropFirstDash cs

/-- JS `arg.replace("-", "")`: with a string pattern, `replace` substitutes
only the FIRST occurrence, so exactly one dash is removed. -/
def jsReplaceFirstDash (s : String) : String :=
  ⟨dropFirstDash s.data⟩

/-- JS `array.join(" ")` (no trailing separator, empty string for `[]`). -/
def joinWith (sep : String) : List String → String
  | [] => ""
  | [a] => a
  | a :: rest => a ++ sep ++ joinWith sep rest

/-- JS `String.prototype.trimRight`. -/
def trimRightStr (s : String) : String :=
  ⟨(s.data.reverse.dropWhile Char.isWhitespace).reverse⟩

/-! ## Severity Model (`parseOutput`, lines 172-198) -/

/-- The `severityMap : SeverityMap` table declared at the top of `parseOutput`
(line 173-183), as an association list in source order. -/
def severityMap : List (String × LintSeverity) :=
  [("info", .notice), ("notice", .notice), ("minor", .warning), ("warning", .warning),
   ("error", .failure), ("major", .failure), ("critical", .failure), ("blocker", .failure),
   ("failure", .failure)]

/-- The keys of `severityMap`. -/
def severityAliasKeys : List String :=
  ["info", "notice", "minor", "warning", "error", "major", "critical", "blocker", "failure"]

/-- Line 191-192: `severityMap[sev.toLowerCase()] ? severityMap[...] : "failure"`.
Every value of the map is a non-empty string, hence truthy, so the JS
conditional is exactly lookup-with-default. -/
def normalizeSeverity (s : String) : LintSeverity :=
  ((severityMap.find? (fun p => p.1 == toLowerCase s)).map Prod.snd).getD .failure

/-- The `.map` body of lines 190-194: replace the severity of a retained raw
issue via `normalizeSeverity`, all other fields pass through the cast
`issue as LintIssue` unchanged. -/
def normalizeIssue (issue : RawIssue) : LintIssue :=
  { Text := issue.Text
    FromLinter := issue.FromLinter
    Severity := normalizeSeverity issue.Severity
    Pos := issue.Pos
    LineRange := issue.LineRange
    Replacement := issue.Replacement }

/-- The failure conditions of `parseOutput`: `JSON.parse` throws on malformed
JSON; the explicit thrown string "golangci-lint returned invalid json" fires when
`Report` is falsy (line 185-187); accessing `.length` of an absent `Issues`
field throws a `TypeError` (line 188).  All three propagate out of
`parseOutput` and are the `MalformedOutput` conditions of the spec. -/
inductive ParseErr
  | invalidJson
  | missingReport
  | typeErr
  deriving DecidableEq, Repr

/-- The message carried by each parse failure. -/
def parseErrMsg : ParseErr → String
  | .invalidJson => "SyntaxError: Unexpected token in JSON"
  | .missingReport => "golangci-lint returned invalid json"
  | .typeErr => "TypeError: Cannot read property length of undefined"

/-- `parseOutput` (lines 172-198): parse the JSON, reject a value without the
advisory `Report` sub-structure, then (when `Issues` is non-empty) keep only
the raw issues whose `Severity` is exactly the string `"ignore"` and remap
their severity.  When `Issues.length` is `0` the filter is skipped and the
(empty) raw array passes through the final cast unchanged. -/
def parseOutput (rt : RawText) : Except ParseErr LintOutput :=
  match rt with
  | .invalid => .error .invalidJson
  | .parsed v =>
    match v.Report with
    | none => .error .missingReport
    | some report =>
      match v.Issues with
      | none => .error .typeErr
      | some issues =>
        if issues.length ≠ 0 then
          .ok { Issues := (issues.filter (fun issue => issue.Severity == "ignore")).map normalizeIssue
                Report := report }
        else
          .ok { Issues := [], Report := report }

/-! ## Annotation Publisher (`annotateLintIssues`, lines 215-265) -/

/-- A review-surface annotation record (`GithubAnnotation`, lines 154-164);
the optional fields are `Option`s that start out absent. -/
structure GithubAnnotation where
  path : String
  start_line : Nat
  end_line : Nat
  start_column : Option Nat
  end_column : Option Nat
  title : String
  message : String
  annotation_level : LintSeverity
  raw_details : Option String
  deriving DecidableEq, Repr

/-- The `issues.map` body of lines 224-249: build the base annotation, override
`end_line` when a `LineRange` is present, otherwise set both column fields when
`issue.Pos.Column` is truthy (non-zero), and attach a fenced suggestion block
when a `Replacement` is present. -/
def annotationOfIssue (issue : LintIssue) : GithubAnnotation :=
  let base : GithubAnnotation :=
    { path := issue.Pos.Filename
      start_line := issue.Pos.Line
      end_line := issue.Pos.Line
      start_column := none
      end_column := none
      title := issue.FromLinter
      message := issue.Text
      annotation_level := issue.Severity
      raw_details := none }
  let withRange : GithubAnnotation :=
    match issue.LineRange with
    | some r => { base with end_line := r.To }
    | none =>
      if issue.Pos.Column ≠ 0 then
        { base with start_column := some issue.Pos.Column, end_column := some issue.Pos.Column }
      else base
  match issue.Replacement with
  | some rep =>
    { withRange with raw_details := some ("```suggestion\n" ++ joinWith "\n" rep.NewLines ++ "\n```") }
  | none => withRange

/-- Lines 223 and 251-253: `chunkSize = 50`; the annotations are cut into
`Math.ceil(length / chunkSize)` slices `slice(i*50, i*50 + 50)`, and each slice
becomes one `octokit.checks.update` call (in order).  `Math.ceil (n / 50)` on
natural `n` is `(n + 50 - 1) / 50` in integer division. -/
def annotationBatches (issues : List LintIssue) : List (List GithubAnnotation) :=
  let chunkSize := 50
  let githubAnnotations := issues.map annotationOfIssue
  (List.range ((githubAnnotations.length + chunkSize - 1) / chunkSize)).map
    (fun i => (githubAnnotations.drop (i * chunkSize)).take chunkSize)

/-! ## Failure Gate (`hasFailingIssues`, lines 267-290) -/

/-- `DefaultFailureSeverity = LintSeverity.notice` (line 170). -/
def DefaultFailureSeverity : LintSeverity := .notice

/-- The string entries of `Object.values(LintSeverity)` for the numeric enum:
`["notice", "warning", "failure", 0, 1, 2]`.  The numeric reverse-mapping
entries can never be strictly equal (`===`) to the string input of `indexOf`,
so only the three names can be hit and the possible indices are 0, 1, 2, -1. -/
def lintSeverityValues : List String :=
  ["notice", "warning", "failure"]

/-- JS `array.indexOf(s)`: the index of the first occurrence, or -1. -/
def jsIndexOf (l : List String) (s : String) : Int :=
  match l.findIdx? (fun x => x == s) with
  | some i => (i : Int)
  | none => -1

/-- The gating core of `hasFailingIssues` (lines 279-289), after the threshold
has been resolved to a number: empty issue list never fails; a resolved
threshold `<= 0` fails on any issue (fast path); otherwise scan for an issue
with `LintSeverity[issue.Severity] >= failureSeverity`. -/
def hasFailingIssuesAt (failureSeverity : Int) (issues : List LintIssue) : Bool :=
  if issues.length ≠ 0 then
    if failureSeverity ≤ 0 then true
    else issues.any (fun issue => (sevOrd issue.Severity : Int) ≥ failureSeverity)
  else false

/-- Threshold resolution (lines 269-278): lower-case the `failure-severity`
input, `indexOf` it in `Object.values(LintSeverity)` (giving -1 when unknown),
and substitute `DefaultFailureSeverity` when the index is negative.  The
`core.info` warning emitted in that case is a log, not a result. -/
def resolveFailureSeverity (failureSeverityInput : String) : Int :=
  let userFailureSeverity := toLowerCase failureSeverityInput
  let failureSeverity := jsIndexOf lintSeverityValues userFailureSeverity
  if failureSeverity < 0 then (sevOrd DefaultFailureSeverity : Int) else failureSeverity

/-- `hasFailingIssues` (lines 267-290): resolve the configured threshold, then
gate. -/
def hasFailingIssues (failureSeverityInput : String) (issues : List LintIssue) : Bool :=
  hasFailingIssuesAt (resolveFailureSeverity failureSeverityInput) issues

/-! ## Execution result handling (`printOutput`, lines 292-339) -/

/-- The stdout text of an `ExecRes`, abstracted by JS truthiness and JSON
parse outcome: `empty` is the falsy `""` (line 297 skips everything), and a
non-empty text carries its `JSON.parse` outcome. -/
inductive StdoutText
  | empty
  | nonempty (rt : RawText)
  deriving DecidableEq, Repr

/-- `ExecRes` (lines 100-104): stdout, stderr, optional exit code. -/
structure ExecRes where
  stdout : StdoutText
  stderr : String
  code : Option Nat
  deriving DecidableEq, Repr

/-- Observable effects of one `printOutput` call: the `core.setFailed` message
(`none` when the run ends with the info log "golangci-lint found no blocking
issues"), and the annotation batches handed to `octokit.checks.update`, in
submission order. -/
structure PrintEffects where
  failedMsg : Option String
  updateCalls : List (List GithubAnnotation)
  deriving DecidableEq, Repr

/-- `printOutput` (lines 292-339) as a function from the host event name, the
`failure-severity` input and the execution result to its observable effects.
Control flow mirrors the source: `exit_code = res.code ? res.code : 0`
(line 294; `getD 0` since a `some 0` is falsy and also maps to 0); a non-empty
stdout is parsed, a parse failure is caught and re-thrown as the processing
error which `core.setFailed`s before any exit-code interpretation; on a parsed
report the issues are logged and, only for the `pull_request` and `push`
events, annotated; then exit code 1 consults `hasFailingIssues` (or reports the
unexpected state when nothing was parsed) and codes above 1 always fail. -/
def printOutput (eventName : String) (failureSeverityInput : String) (res : ExecRes) :
    PrintEffects :=
  let exit_code := res.code.getD 0
  match res.stdout with
  | .empty =>
    if exit_code = 1 then
      { failedMsg := some "unexpected state, golangci-lint exited with 1, but provided no lint output"
        updateCalls := [] }
    else if exit_code > 1 then
      { failedMsg := some ("golangci-lint exit with code " ++ toString exit_code)
        updateCalls := [] }
    else
      { failedMsg := none, updateCalls := [] }
  | .nonempty rt =>
    match parseOutput rt with
    | .error e =>
      { failedMsg := some ("there was an error processing golangci-lint output: " ++ parseErrMsg e)
        updateCalls := [] }
    | .ok lintOutput =>
      let calls :=
        if eventName == "pull_request" ∨ eventName == "push" then
          annotationBatches lintOutput.Issues
        else []
      if exit_code = 1 then
        if hasFailingIssues failureSeverityInput lintOutput.Issues then
          { failedMsg := some "issues found", updateCalls := calls }
        else
          { failedMsg := none, updateCalls := calls }
      else if exit_code > 1 then
        { failedMsg := some ("golangci-lint exit with code " ++ toString exit_code)
          updateCalls := calls }
      else
        { failedMsg := none, updateCalls := calls }

/-! ## Execution Driver argument assembly (`runLint`, lines 341-405) -/

/-- The `throw new Error(...)` conditions of the argument-assembly stage of
`runLint`, in program order. -/
inductive RunLintErr
  | outFormatConflict
  | newArgsConflict
  | workingDirIncompat
  | workingDirNotADir
  deriving DecidableEq, Repr

/-- Lines 351-358: the set of user argument names, computed by splitting the
raw `args` input on whitespace, taking the prefix of each token before `=`,
keeping the tokens that start with a dash, and applying `arg.replace("-", "")`,
which
removes only the FIRST dash.  The JS `Set` is modelled as the list of inserted
elements (only membership is consumed). -/
def userArgNames (userArgs : String) : List String :=
  (((splitOnWhitespace userArgs).map argName).filter startsWithDash).map jsReplaceFirstDash

/-- The command-assembly stage of `runLint` (lines 348-392), from the raw
inputs to either a thrown configuration error or the exact shell command that
is passed to `execShellCommand` (the spawn point, line 396).  The filesystem
check `fs.existsSync(wd) && fs.lstatSync(wd).isDirectory()` is abstracted by
the boolean `wdIsDirectory`. -/
def buildCmd (lintPath userArgs patchPath workingDirectory : String)
    (wdIsDirectory : Bool) : Except RunLintErr String :=
  let names := userArgNames userArgs
  if names.contains "out-format" then .error .outFormatConflict
  else
    let addedArgs1 := ["--out-format=json"]
    if patchPath ≠ "" ∧
        (names.contains "new" ∨ names.contains "new-from-rev" ∨ names.contains "new-from-patch") then
      .error .newArgsConflict
    else
      let addedArgs2 :=
        if patchPath ≠ "" then
          addedArgs1 ++ ["--new-from-patch=" ++ patchPath, "--new=false", "--new-from-rev="]
        else addedArgs1
      if workingDirectory ≠ "" ∧ patchPath ≠ "" then .error .workingDirIncompat
      else if workingDirectory ≠ "" ∧ ¬ wdIsDirectory then .error .workingDirNotADir
      else
        let addedArgs3 :=
          if workingDirectory ≠ "" ∧ ¬ names.contains "path-prefix" then
            addedArgs2 ++ ["--path-prefix=" ++ workingDirectory]
          else addedArgs2
        .ok (trimRightStr (lintPath ++ " run " ++ joinWith " " addedArgs3 ++ " " ++ userArgs))

/-! ## Sample values used by the closed witnesses -/

/-- A sample position. -/
def samplePos : Pos :=
  { Filename := "main.go", Line := 10, Column := 5 }

/-- A sample parsed issue carrying the maximum severity. -/
def sampleIssue : LintIssue :=
  { Text := "unused variable x"
    FromLinter := "govet"
    Severity := .failure
    Pos := samplePos
    LineRange := none
    Replacement := none }

/-- A raw issue carrying the `"ignore"` sentinel severity. -/
def rawIgnore : RawIssue :=
  { Text := "shadowed variable"
    FromLinter := "govet"
    Severity := "ignore"
    Pos := samplePos
    LineRange := none
    Replacement := none }

/-- A raw issue carrying an ordinary severity (it is dropped by the filter). -/
def rawError : RawIssue :=
  { Text := "error return value not checked"
    FromLinter := "errcheck"
    Severity := "error"
    Pos := samplePos
    LineRange := none
    Replacement := none }

/-- An empty advisory sub-structure. -/
def sampleReport : ReportInfo :=
  { Warnings := none, Linters := none, Error := none }

/-- A raw parse value with the advisory sub-structure and two raw issues. -/
def sampleRaw : RawLintOutput :=
  { Issues := some [rawIgnore, rawError], Report := some sampleReport }

/-- An execution result with parsable stdout and exit code 1. -/
def sampleRes : ExecRes :=
  { stdout := .nonempty (.parsed sampleRaw), stderr := "", code := some 1 }

end GolangciLintAction

namespace GolangciLintAction

/-! ## Claim theorems -/

/-- C1: the spec demands that every user-supplied output-format argument, e.g.
the token `--out-format=xml`, aborts the driver with a `ConfigConflict` before
the subprocess is spawned.  The code misses the standard double-dash form:
`arg.replace("-", "")` removes only the first dash, so `--out-format=xml`
contributes the name `-out-format` to `userArgNames`, the
`userArgNames.has("out-format")` test is false, and the command is assembled
and handed to `execShellCommand` carrying both the forced `--out-format=json`
and the user token.  Only the single-dash spelling `-out-format=xml` is
rejected, which shows the check was intended to catch this argument. -/
theorem outFormat_gate_bypassed :
    buildCmd "golangci-lint" "--out-format=xml" "" "" true =
      .ok "golangci-lint run --out-format=json --out-format=xml" ∧
    buildCmd "golangci-lint" "-out-format=xml" "" "" true = .error .outFormatConflict := by
  constructor <;> rfl

/-- Helper for C4: when the lower-cased label is a key of `severityMap`, the
normalization returns the mapped value. -/
theorem normalize_of_lower (label key : String) (v : LintSeverity)
    (h : toLowerCase label = key)
    (hfind : ((severityMap.find? (fun p => p.1 == key)).map Prod.snd).getD .failure = v) :
    normalizeSeverity label = v := by
  unfold normalizeSeverity
  rw [h, hfind]

/-- Helper for C4: a label whose lower-casing is not a key of `severityMap`
normalizes to the maximum severity. -/
theorem normalize_of_unknown (label : String)
    (h : toLowerCase label ∉ severityAliasKeys) :
    normalizeSeverity label = .failure := by
  unfold normalizeSeverity
  have hf : severityMap.find? (fun p => p.1 == toLowerCase label) = none := by
    rw [List.find?_eq_none]
    intro p hp
    simp only [severityAliasKeys, List.mem_cons, List.not_mem_nil, or_false] at h
    push_neg at h
    obtain ⟨h1, h2, h3, h4, h5, h6, h7, h8, h9⟩ := h
    simp only [severityMap, List.mem_cons, List.not_mem_nil, or_false] at hp
    rcases hp with rfl | rfl | rfl | rfl | rfl | rfl | rfl | rfl | rfl <;>
      simp only [beq_iff_eq] <;>
      intro hh <;>
      first
        | exact h1 hh.symm
        | exact h2 hh.symm
        | exact h3 hh.symm
        | exact h4 hh.symm
        | exact h5 hh.symm
        | exact h6 hh.symm
        | exact h7 hh.symm
        | exact h8 hh.symm
        | exact h9 hh.symm
  rw [hf]
  rfl

/-- C4: severity normalization is total.  For every label whose lower-casing is
one of the nine known aliases the result is exactly the mapped canonical
severity (info and notice map to notice; minor and warning map to warning;
error, major, critical, blocker and failure map to failure), and for every
label whose lower-casing is none of them the result is the maximum severity
`failure` — the function never fails. -/
theorem normalizeSeverity_total (label : String) :
    (toLowerCase label = "info" → normalizeSeverity label = .notice) ∧
    (toLowerCase label = "notice" → normalizeSeverity label = .notice) ∧
    (toLowerCase label = "minor" → normalizeSeverity label = .warning) ∧
    (toLowerCase label = "warning" → normalizeSeverity label = .warning) ∧
    (toLowerCase label = "error" → normalizeSeverity label = .failure) ∧
    (toLowerCase label = "major" → normalizeSeverity label = .failure) ∧
    (toLowerCase label = "critical" → normalizeSeverity label = .failure) ∧
    (toLowerCase label = "blocker" → normalizeSeverity label = .failure) ∧
    (toLowerCase label = "failure" → normalizeSeverity label = .failure) ∧
    (toLowerCase label ∉ severityAliasKeys → normalizeSeverity label = .failure) :=
  ⟨fun h => normalize_of_lower label _ _ h (by decide),
   fun h => normalize_of_lower label _ _ h (by decide),
   fun h => normalize_of_lower label _ _ h (by decide),
   fun h => normalize_of_lower label _ _ h (by decide),
   fun h => normalize_of_lower label _ _ h (by decide),
   fun h => normalize_of_lower label _ _ h (by decide),
   fun h => normalize_of_lower label _ _ h (by decide),
   fun h => normalize_of_lower label _ _ h (by decide),
   fun h => normalize_of_lower label _ _ h (by decide),
   fun h => normalize_of_unknown label h⟩

/-- Closed instance of the statement above, at a known alias in mixed case and
at an unknown label. -/
theorem normalizeSeverity_total_witness :
    normalizeSeverity "Info" = .notice ∧ normalizeSeverity "bogus" = .failure :=
  ⟨(normalizeSeverity_total "Info").1 (by decide),
   (normalizeSeverity_total "bogus").2.2.2.2.2.2.2.2.2 (by decide)⟩

/-- Helper for C2: filtering on the "ignore" sentinel and then mapping the
normalization is one `filterMap`. -/
theorem filter_ignore_eq (l : List RawIssue) :
    (l.filter (fun issue => issue.Severity == "ignore")).map normalizeIssue =
      l.filterMap
        (fun issue => if issue.Severity = "ignore" then some (normalizeIssue issue) else none) := by
  induction l with
  | nil => rfl
  | cons a t ih =>
    by_cases h : a.Severity = "ignore"
    · simp [List.filter_cons, List.filterMap_cons, h, ih]
    · simp [List.filter_cons, List.filterMap_cons, h, ih]

/-- C2: on every input that parses to a value carrying the advisory
sub-structure and a non-empty `Issues` array, `parseOutput` succeeds and
returns exactly the raw issues whose `Severity` field is the string "ignore",
each with its severity replaced by the severity-alias normalization
(`normalizeIssue`), all other issues being dropped, in order. -/
theorem parseOutput_filters_ignore (v : RawLintOutput) (report : ReportInfo)
    (issues : List RawIssue) (hr : v.Report = some report) (hi : v.Issues = some issues)
    (hne : issues ≠ []) :
    parseOutput (.parsed v) =
      .ok { Issues := issues.filterMap
              (fun issue => if issue.Severity = "ignore" then some (normalizeIssue issue) else none)
            Report := report } := by
  have hlen : issues.length ≠ 0 := fun h0 => hne (List.length_eq_zero.mp h0)
  obtain ⟨Is, Rp⟩ := v
  obtain rfl : Rp = some report := hr
  obtain rfl : Is = some issues := hi
  simp only [parseOutput]
  rw [if_pos hlen, filter_ignore_eq]

/-- Closed instance of the statement above on a two-issue input, one issue
carrying the sentinel and one carrying an ordinary severity. -/
theorem parseOutput_filters_ignore_witness :
    parseOutput (.parsed sampleRaw) =
      .ok { Issues := [rawIgnore, rawError].filterMap
              (fun issue => if issue.Severity = "ignore" then some (normalizeIssue issue) else none)
            Report := sampleReport } :=
  parseOutput_filters_ignore sampleRaw sampleReport [rawIgnore, rawError] rfl rfl
    (List.cons_ne_nil _ _)

/-- C3: every issue of a successfully parsed report has normalized severity
`failure` — the filter keeps only raw issues whose severity is the sentinel
"ignore", "ignore" is not a key of `severityMap`, so the unknown-alias
fallback applies to every retained issue. -/
theorem parseOutput_issues_all_failure (rt : RawText) (out : LintOutput)
    (h : parseOutput rt = .ok out) :
    ∀ issue ∈ out.Issues, issue.Severity = LintSeverity.failure := by
  intro issue hmem
  cases rt with
  | invalid => simp [parseOutput] at h
  | parsed v =>
    obtain ⟨Is, Rp⟩ := v
    cases Rp with
    | none => simp [parseOutput] at h
    | some report =>
      cases Is with
      | none => simp [parseOutput] at h
      | some issues =>
        simp only [parseOutput] at h
        by_cases hlen : issues.length ≠ 0
        · rw [if_pos hlen] at h
          obtain rfl := (Except.ok.inj h).symm
          simp only [List.mem_map] at hmem
          obtain ⟨raw, hraw, rfl⟩ := hmem
          have hsev : raw.Severity = "ignore" := by
            have := (List.mem_filter.mp hraw).2
            simpa using this
          show normalizeSeverity raw.Severity = LintSeverity.failure
          rw [hsev]
          decide
        · rw [if_neg hlen] at h
          obtain rfl := (Except.ok.inj h).symm
          simp at hmem

/-- Closed instance of the statement above: the issue retained from
`sampleRaw` ends up with severity `failure`. -/
theorem parseOutput_issues_all_failure_witness :
    (normalizeIssue rawIgnore).Severity = LintSeverity.failure :=
  parseOutput_issues_all_failure (.parsed sampleRaw)
    { Issues := [normalizeIssue rawIgnore], Report := sampleReport }
    rfl (normalizeIssue rawIgnore) (by simp)

/-- C5: `parseOutput` fails with a MalformedOutput condition on every text
that is not well-formed JSON, and on every parsed value lacking the advisory
`Report` sub-structure — whatever its `Issues` field holds (the second
conjunct quantifies over all values of the `Issues` field). -/
theorem parseOutput_rejects_invalid :
    parseOutput .invalid = .error .invalidJson ∧
    ∀ v : RawLintOutput, v.Report = none → parseOutput (.parsed v) = .error .missingReport := by
  refine ⟨rfl, fun v hv => ?_⟩
  obtain ⟨Is, Rp⟩ := v
  obtain rfl : Rp = none := hv
  rfl

/-- Closed instance of the statement above: a value with an `Issues` array but
no `Report` is rejected. -/
theorem parseOutput_rejects_invalid_witness :
    parseOutput (.parsed { Issues := some [rawIgnore], Report := none }) =
      .error .missingReport :=
  parseOutput_rejects_invalid.2 { Issues := some [rawIgnore], Report := none } rfl

/-- C6: the failure gate is monotone in the resolved threshold.  For a fixed
issue list and two resolved thresholds ordered by the severity order, a run
that fails at the higher threshold also fails at the lower one — raising the
threshold can only turn a true result false, never the reverse. -/
theorem hasFailingIssuesAt_monotone (issues : List LintIssue) (t1 t2 : LintSeverity)
    (hle : sevOrd t1 ≤ sevOrd t2)
    (h : hasFailingIssuesAt (sevOrd t2) issues = true) :
    hasFailingIssuesAt (sevOrd t1) issues = true := by
  unfold hasFailingIssuesAt at h ⊢
  by_cases hlen : issues.length ≠ 0
  · rw [if_pos hlen] at h ⊢
    by_cases h1 : (sevOrd t1 : Int) ≤ 0
    · rw [if_pos h1]
    · rw [if_neg h1]
      have h2 : ¬ ((sevOrd t2 : Int) ≤ 0) := by omega
      rw [if_neg h2] at h
      rw [List.any_eq_true] at h ⊢
      obtain ⟨issue, hmem, hcmp⟩ := h
      refine ⟨issue, hmem, ?_⟩
      simp only [decide_eq_true_eq] at hcmp ⊢
      omega
  · rw [if_neg hlen] at h
    exact absurd h (by simp)

/-- Closed instance of the statement above: a single failure-severity issue
fails at threshold warning because it fails at threshold failure. -/
theorem hasFailingIssuesAt_monotone_witness :
    hasFailingIssuesAt (sevOrd .warning) [sampleIssue] = true :=
  hasFailingIssuesAt_monotone [sampleIssue] .warning .failure (by decide) (by decide)

/-- C7: in the issue-to-annotation mapping, `end_line` equals the issue
start line when no line range is present and equals `LineRange.To` otherwise,
and the two column fields are populated (with the reported column) exactly
when no line range is present and the reported column is non-zero. -/
theorem annotationOfIssue_lines_columns (issue : LintIssue) :
    (annotationOfIssue issue).end_line =
      (match issue.LineRange with
       | none => issue.Pos.Line
       | some r => r.To) ∧
    (annotationOfIssue issue).start_column =
      (match issue.LineRange with
       | none => if issue.Pos.Column ≠ 0 then some issue.Pos.Column else none
       | some _ => none) ∧
    (annotationOfIssue issue).end_column =
      (match issue.LineRange with
       | none => if issue.Pos.Column ≠ 0 then some issue.Pos.Column else none
       | some _ => none) := by
  obtain ⟨t, fl, sev, pos, lr, rep⟩ := issue
  cases lr with
  | none =>
    cases rep with
    | none =>
      by_cases hc : pos.Column ≠ 0 <;> simp [annotationOfIssue, hc]
    | some rp =>
      by_cases hc : pos.Column ≠ 0 <;> simp [annotationOfIssue, hc]
  | some r =>
    cases rep with
    | none => simp [annotationOfIssue]
    | some rp => simp [annotationOfIssue]

/-- Helper for C8: flattening the index-sliced chunks of a list restores the
list, provided enough chunks are taken. -/
theorem join_range_chunks {α : Type} (k : Nat) :
    ∀ (m : Nat) (l : List α), l.length ≤ m * k →
      ((List.range m).map (fun i => (l.drop (i * k)).take k)).flatten = l := by
  intro m
  induction m with
  | zero =>
    intro l hl
    have : l = [] := List.eq_nil_of_length_eq_zero (Nat.le_zero.mp (by simpa using hl))
    subst this
    rfl
  | succ m ih =>
    intro l hl
    rw [List.range_succ_eq_map, List.map_cons, List.flatten_cons, List.map_map]
    have hmap :
        (List.range m).map ((fun i => (l.drop (i * k)).take k) ∘ Nat.succ) =
        (List.range m).map (fun i => ((l.drop k).drop (i * k)).take k) := by
      apply List.map_congr_left
      intro i _
      simp only [Function.comp]
      rw [List.drop_drop]
      congr 2
      simp only [Nat.succ_eq_add_one]
      ring
    rw [hmap, ih (l.drop k) (by simp [Nat.succ_mul] at hl ⊢; omega)]
    simp [List.take_append_drop k l]

/-- C8: for a list of n published issues the annotations are split into
ceil(n/50) batches, every batch holds at most 50 annotations, the batch sizes
sum to n, and concatenating the batches in submission order yields the
annotation list in original issue order. -/
theorem annotationBatches_spec (issues : List LintIssue) :
    (annotationBatches issues).length = (issues.length + 49) / 50 ∧
    (∀ b ∈ annotationBatches issues, b.length ≤ 50) ∧
    ((annotationBatches issues).map List.length).sum = issues.length ∧
    (annotationBatches issues).flatten = issues.map annotationOfIssue := by
  have hjoin : (annotationBatches issues).flatten = issues.map annotationOfIssue := by
    unfold annotationBatches
    apply join_range_chunks 50
    simp only [List.length_map]
    omega
  refine ⟨?_, ?_, ?_, hjoin⟩
  · simp [annotationBatches]
  · intro b hb
    simp only [annotationBatches, List.mem_map] at hb
    obtain ⟨i, _, rfl⟩ := hb
    simp [List.length_take_le 50 ((issues.map annotationOfIssue).drop (i * 50))]
  · have := congrArg List.length hjoin
    rw [List.length_flatten] at this
    simpa using this

/-- Closed instance of the statement above: the first batch of a one-issue
publication holds at most 50 annotations. -/
theorem annotationBatches_spec_witness :
    ((annotationBatches [sampleIssue]).headD []).length ≤ 50 :=
  (annotationBatches_spec [sampleIssue]).2.1 ((annotationBatches [sampleIssue]).headD [])
    (by decide)

/-- C9: for every execution result whose exit code is above 1 the run is
marked failed (a `setFailed` message is produced) whatever stdout held, and
for every execution result with exit code exactly 1 and empty stdout the run
is marked failed with the unexpected-state message. -/
theorem printOutput_exit_codes (eventName failureSeverityInput : String) (res : ExecRes)
    (c : Nat) (hc : res.code = some c) :
    (1 < c → (printOutput eventName failureSeverityInput res).failedMsg ≠ none) ∧
    (c = 1 → res.stdout = .empty →
      (printOutput eventName failureSeverityInput res).failedMsg =
        some "unexpected state, golangci-lint exited with 1, but provided no lint output") := by
  obtain ⟨sout, serr, code⟩ := res
  obtain rfl : code = some c := hc
  constructor
  · intro hgt
    have hne1 : ¬ ((some c).getD 0 = 1) := by simp; omega
    have hgt1 : (some c).getD 0 > 1 := by simpa using hgt
    cases sout with
    | empty =>
      simp only [printOutput]
      rw [if_neg hne1, if_pos hgt1]
      simp
    | nonempty rt =>
      simp only [printOutput]
      split
      · simp
      · rw [if_neg hne1, if_pos hgt1]
        simp
  · intro h1 hstd
    obtain rfl : sout = StdoutText.empty := hstd
    subst h1
    rfl

/-- Closed instance of the statement above at exit codes 3 and 1. -/
theorem printOutput_exit_codes_witness :
    (printOutput "push" "error" { stdout := .empty, stderr := "", code := some 3 }).failedMsg
      ≠ none ∧
    (printOutput "push" "error" { stdout := .empty, stderr := "", code := some 1 }).failedMsg =
      some "unexpected state, golangci-lint exited with 1, but provided no lint output" :=
  ⟨(printOutput_exit_codes "push" "error" { stdout := .empty, stderr := "", code := some 3 } 3
      rfl).1 (by omega),
   (printOutput_exit_codes "push" "error" { stdout := .empty, stderr := "", code := some 1 } 1
      rfl).2 rfl rfl⟩

/-- C10: annotation publishing happens only under the `pull_request` and
`push` events — for a run under any other event name no `checks.update` call
is made, whatever the execution result was. -/
theorem printOutput_updateCalls_only_pr_push (eventName failureSeverityInput : String)
    (res : ExecRes) (h1 : eventName ≠ "pull_request") (h2 : eventName ≠ "push") :
    (printOutput eventName failureSeverityInput res).updateCalls = [] := by
  obtain ⟨sout, serr, code⟩ := res
  cases sout with
  | empty =>
    simp only [printOutput]
    split
    · rfl
    split
    · rfl
    · rfl
  | nonempty rt =>
    simp only [printOutput]
    have hcond : ¬ ((eventName == "pull_request") ∨ (eventName == "push")) := by
      simp [h1, h2]
    split
    · rfl
    · rw [if_neg hcond]
      split
      · split <;> rfl
      · split <;> rfl

/-- Closed instance of the statement above under a `release` event, with a
result whose stdout parses to a report with one retained issue. -/
theorem printOutput_updateCalls_only_pr_push_witness :
    (printOutput "release" "error" sampleRes).updateCalls = [] :=
  printOutput_updateCalls_only_pr_push "release" "error" sampleRes (by decide) (by decide)

end GolangciLintAction
